import Mathlib

/-!
Verification of the permit.io project-interaction app's API client,
entity repositories, preset flow and reset orchestrator.

The JavaScript source is shallowly embedded: each `async` function that
performs HTTP calls becomes a pure Lean function over an explicit
environment `Env : Request → FetchOutcome` describing how the remote
service answers each request, and functions whose call sequence matters
additionally return the trace of requests they issue.
-/

/-- JSON values, as produced by `JSON.parse` and consumed by the app.
Objects are association lists in insertion order (JS object semantics). -/
inductive Json where
  | null
  | bool (b : Bool)
  | num (n : Int)
  | str (s : String)
  | arr (elems : List Json)
  | obj (fields : List (String × Json))

/-- JS truthiness of a JSON value (`!x` in the source negates this). -/
def Json.truthy : Json → Bool
  | .null => false
  | .bool b => b
  | .num n => n != 0
  | .str s => s != ""
  | .arr _ => true
  | .obj _ => true

/-- JS truthiness of a possibly-null value (`none` models JS `null`). -/
def jsTruthy : Option Json → Bool
  | none => false
  | some j => j.truthy

/-- Elements iterated by `for (const x of v)`; non-arrays yield nothing
(the source only ever iterates values that are arrays when present). -/
def Json.asArray : Json → List Json
  | .arr elems => elems
  | _ => []

/-- JS property access `o.field`: first binding of the key in an object
(JS objects have unique keys), `null` (standing in for `undefined`)
otherwise. -/
def Json.getField : Json → String → Json
  | .obj fields, name => lookupField fields name
  | _, _ => .null
where
  lookupField : List (String × Json) → String → Json
    | [], _ => .null
    | (k, v) :: rest, name => if k = name then v else lookupField rest name

/-- Whether a JSON value is a string. -/
def Json.isStr : Json → Bool
  | .str _ => true
  | _ => false

/-- JS strict equality `v === "lit"` of a value against a string literal:
true exactly for the string itself. -/
def Json.isStrEq (j : Json) (lit : String) : Bool :=
  match j with
  | .str s => s == lit
  | _ => false

/-- Escape one character as `JSON.stringify` does for the characters the
app's data can contain. -/
def jsonEscapeChar (c : Char) : String :=
  if c = '"' then "\\\""
  else if c = '\\' then "\\\\"
  else if c = '\n' then "\\n"
  else if c = '\t' then "\\t"
  else if c = '\r' then "\\r"
  else String.singleton c

/-- Escape a string body as `JSON.stringify` does. -/
def jsonEscape (s : String) : String :=
  String.join (s.data.map jsonEscapeChar)

/-- A JSON string literal: quoted and escaped. -/
def jsonQuote (s : String) : String :=
  "\"" ++ jsonEscape s ++ "\""

mutual

/-- `JSON.stringify` of a JSON value (used by the verification lint on
condition trees). -/
def Json.stringify : Json → String
  | .null => "null"
  | .bool true => "true"
  | .bool false => "false"
  | .num n => toString n
  | .str s => jsonQuote s
  | .arr elems => "[" ++ String.intercalate "," (Json.stringifyList elems) ++ "]"
  | .obj fields => "\x7b" ++ String.intercalate "," (Json.stringifyFields fields) ++ "\x7d"

/-- `JSON.stringify` of the elements of an array. -/
def Json.stringifyList : List Json → List String
  | [] => []
  | j :: rest => Json.stringify j :: Json.stringifyList rest

/-- `JSON.stringify` of the fields of an object. -/
def Json.stringifyFields : List (String × Json) → List String
  | [] => []
  | (k, v) :: rest => (jsonQuote k ++ ":" ++ Json.stringify v) :: Json.stringifyFields rest

end

mutual

/-- JS string interpolation of a value into a template literal
(`ToString` semantics: arrays join elements with commas, objects render
as `[object Object]`, `null`/`undefined` inside arrays render empty). -/
def Json.jsToString : Json → String
  | .null => "null"
  | .bool true => "true"
  | .bool false => "false"
  | .num n => toString n
  | .str s => s
  | .arr elems => String.intercalate "," (Json.jsToStringList elems)
  | .obj _ => "[object Object]"

/-- `Array.prototype.join` element rendering: `null` renders empty. -/
def Json.jsToStringList : List Json → List String
  | [] => []
  | .null :: rest => "" :: Json.jsToStringList rest
  | j :: rest => Json.jsToString j :: Json.jsToStringList rest

end

/-- Replace (or append) one field of a JS object literal
`\x7b ...base, k: v \x7d`: if `k` is already a key its value is
overwritten in place, otherwise the field is appended; spreading a
non-object contributes no fields. -/
def Json.spreadSet (j : Json) (k : String) (v : Json) : Json :=
  match j with
  | .obj fields => .obj (setField fields k v)
  | _ => .obj [(k, v)]
where
  setField (fields : List (String × Json)) (k : String) (v : Json) :
      List (String × Json) :=
    if fields.any (fun p => p.1 = k) then
      fields.map (fun p => if p.1 = k then (k, v) else p)
    else
      fields ++ [(k, v)]

/-- The value a JS reader sees for field `k` of a payload, `none` when
the payload is not an object or lacks the field. -/
def Json.fieldValue (j : Json) (k : String) : Option Json :=
  match j with
  | .obj fields => lookupValue fields k
  | _ => none
where
  lookupValue : List (String × Json) → String → Option Json
    | [], _ => none
    | (k', v) :: rest, k => if k' = k then some v else lookupValue rest k

/-- Outcome of one `fetch`, as observed by `permitApi` (src/api.js):
either an HTTP response whose text body either parsed as JSON
(`some j`) or did not / was empty (`none`, the JS `null`), or a thrown
network/abort error with its message. -/
inductive FetchOutcome where
  | response (status : Nat) (body : Option Json)
  | networkError (message : String)

/-- The normalized result shape returned by `permitApi` (src/api.js).
Absent JS fields are modelled by the defaults: `status := none` and
`error := none` model fields that were never set, `«exists» := false`
models the falsy `undefined` read of a missing `exists` field. -/
structure ApiResult where
  success : Bool
  data : Option Json := none
  status : Option Nat := none
  «exists» : Bool := false
  error : Option String := none

/-- The API paths the app builds, one constructor per path shape
(rendered to the literal URL strings by `Endpoint.path`). -/
inductive Endpoint where
  | resources
  | resource (key : String)
  | resourceAttributes (resourceKey : String)
  | resourceAttribute (resourceKey : String) (attributeKey : String)
  | roles
  | role (key : String)
  | rolePermissions (roleKey : String)
  | conditionSets
  | conditionSet (key : String)
  | setRules
  | tenant (key : String)
  deriving DecidableEq

/-- Project/environment scope from configuration (src/config.js). -/
structure Config where
  projectId : String
  envId : String

/-- The literal endpoint string each `Endpoint` stands for, exactly as
built in the source. -/
def Endpoint.path (cfg : Config) : Endpoint → String
  | .resources => "/schema/" ++ cfg.projectId ++ "/" ++ cfg.envId ++ "/resources"
  | .resource key => "/schema/" ++ cfg.projectId ++ "/" ++ cfg.envId ++ "/resources/" ++ key
  | .resourceAttributes rk =>
      "/schema/" ++ cfg.projectId ++ "/" ++ cfg.envId ++ "/resources/" ++ rk ++ "/attributes"
  | .resourceAttribute rk ak =>
      "/schema/" ++ cfg.projectId ++ "/" ++ cfg.envId ++ "/resources/" ++ rk ++ "/attributes/" ++ ak
  | .roles => "/schema/" ++ cfg.projectId ++ "/" ++ cfg.envId ++ "/roles"
  | .role key => "/schema/" ++ cfg.projectId ++ "/" ++ cfg.envId ++ "/roles/" ++ key
  | .rolePermissions rk =>
      "/schema/" ++ cfg.projectId ++ "/" ++ cfg.envId ++ "/roles/" ++ rk ++ "/permissions"
  | .conditionSets => "/schema/" ++ cfg.projectId ++ "/" ++ cfg.envId ++ "/condition_sets"
  | .conditionSet key =>
      "/schema/" ++ cfg.projectId ++ "/" ++ cfg.envId ++ "/condition_sets/" ++ key
  | .setRules => "/facts/" ++ cfg.projectId ++ "/" ++ cfg.envId ++ "/set_rules"
  | .tenant key => "/facts/" ++ cfg.projectId ++ "/" ++ cfg.envId ++ "/tenants/" ++ key

/-- One API request as issued through `permitApi`. -/
structure Request where
  method : String
  endpoint : Endpoint
  body : Option Json := none

/-- How the remote service answers each request in a given run. -/
def Env : Type := Request → FetchOutcome

/-- Embeds `permitApi` (src/api.js lines 13-61): classify the fetch
outcome into the normalized result. `response.ok` is status 200-299;
409 is classified before the generic failure branch as success with
`exists = true`; a thrown error yields a result carrying only
`success = false` and the message. -/
def permitApi (outcome : FetchOutcome) : ApiResult :=
  match outcome with
  | .response status body =>
      if 200 ≤ status ∧ status < 300 then
        { success := true, data := body, status := some status }
      else if status = 409 then
        { success := true, data := body, status := some status, «exists» := true }
      else
        { success := false, data := body, status := some status }
  | .networkError message =>
      { success := false, error := some message }

/-- The request `createResource` issues (src/resources.js lines 10-25). -/
def createResourceRequest (resource : Json) : Request :=
  { method := "POST", endpoint := .resources, body := some resource }

/-- Embeds `createResource` (src/resources.js lines 10-25): POST the
resource, return `result.success`. -/
def createResource (env : Env) (resource : Json) : Bool :=
  (permitApi (env (createResourceRequest resource))).success

/-- The request `listResources` issues (src/resources.js lines 44-50). -/
def listResourcesRequest : Request :=
  { method := "GET", endpoint := .resources }

/-- Embeds `listResources` (src/resources.js lines 44-50):
`result.success ? result.data : []`.  The JS value `null` is `none`. -/
def listResources (env : Env) : Option Json :=
  let result := permitApi (env listResourcesRequest)
  if result.success then result.data else some (.arr [])

/-- The request `deleteResource` issues (src/resources.js lines 57-63). -/
def deleteResourceRequest (resourceKey : String) : Request :=
  { method := "DELETE", endpoint := .resource resourceKey }

/-- Embeds `deleteResource` (src/resources.js lines 57-63):
`result.success || result.status === 404`. -/
def deleteResource (env : Env) (resourceKey : String) : Bool :=
  let result := permitApi (env (deleteResourceRequest resourceKey))
  result.success || result.status == some 404

/-- The request `createRole` issues (src/roles.js lines 10-25). -/
def createRoleRequest (role : Json) : Request :=
  { method := "POST", endpoint := .roles, body := some role }

/-- Embeds `createRole` (src/roles.js lines 10-25). -/
def createRole (env : Env) (role : Json) : Bool :=
  (permitApi (env (createRoleRequest role))).success

/-- The request `listRoles` issues (src/roles.js lines 49-55). -/
def listRolesRequest : Request :=
  { method := "GET", endpoint := .roles }

/-- Embeds `listRoles` (src/roles.js lines 49-55). -/
def listRoles (env : Env) : Option Json :=
  let result := permitApi (env listRolesRequest)
  if result.success then result.data else some (.arr [])

/-- The request `deleteRole` issues (src/roles.js lines 62-68). -/
def deleteRoleRequest (roleKey : String) : Request :=
  { method := "DELETE", endpoint := .role roleKey }

/-- Embeds `deleteRole` (src/roles.js lines 62-68). -/
def deleteRole (env : Env) (roleKey : String) : Bool :=
  let result := permitApi (env (deleteRoleRequest roleKey))
  result.success || result.status == some 404

/-- The request `createUserAttribute` issues (abac module lines 98-118):
the body is rebuilt from the config's key, type and description. -/
def createUserAttributeRequest (attributeConfig : Json) : Request :=
  { method := "POST", endpoint := .resourceAttributes "__user",
    body := some (.obj
      [("key", attributeConfig.getField "key"),
       ("type", attributeConfig.getField "type"),
       ("description", attributeConfig.getField "description")]) }

/-- Embeds `createUserAttribute` (abac module lines 98-118). -/
def createUserAttribute (env : Env) (attributeConfig : Json) : Bool :=
  (permitApi (env (createUserAttributeRequest attributeConfig))).success

/-- The payload of `createUserSet` (abac module lines 125-143):
`\x7b ...userSet, type: CONDITION_SET_TYPES.USER_SET \x7d`. -/
def createUserSetPayload (userSet : Json) : Json :=
  userSet.spreadSet "type" (.str "userset")

/-- The request `createUserSet` issues (abac module lines 125-143). -/
def createUserSetRequest (userSet : Json) : Request :=
  { method := "POST", endpoint := .conditionSets, body := some (createUserSetPayload userSet) }

/-- Embeds `createUserSet` (abac module lines 125-143). -/
def createUserSet (env : Env) (userSet : Json) : Bool :=
  (permitApi (env (createUserSetRequest userSet))).success

/-- The payload of `createResourceSet` (abac module lines 150-168):
`\x7b ...resourceSet, type: CONDITION_SET_TYPES.RESOURCE_SET \x7d`. -/
def createResourceSetPayload (resourceSet : Json) : Json :=
  resourceSet.spreadSet "type" (.str "resourceset")

/-- The request `createResourceSet` issues (abac module lines 150-168). -/
def createResourceSetRequest (resourceSet : Json) : Request :=
  { method := "POST", endpoint := .conditionSets,
    body := some (createResourceSetPayload resourceSet) }

/-- Embeds `createResourceSet` (abac module lines 150-168). -/
def createResourceSet (env : Env) (resourceSet : Json) : Bool :=
  (permitApi (env (createResourceSetRequest resourceSet))).success

/-- The request `createSetRule` issues (abac module lines 177-188). -/
def createSetRuleRequest (userSet resourceSet permission : String) : Request :=
  { method := "POST", endpoint := .setRules,
    body := some (.obj
      [("user_set", .str userSet), ("resource_set", .str resourceSet),
       ("permission", .str permission)]) }

/-- Embeds `createSetRule` (abac module lines 177-188). -/
def createSetRule (env : Env) (userSet resourceSet permission : String) : Bool :=
  (permitApi (env (createSetRuleRequest userSet resourceSet permission))).success

/-- The request `listConditionSets` issues (abac module lines 194-200). -/
def listConditionSetsRequest : Request :=
  { method := "GET", endpoint := .conditionSets }

/-- Embeds `listConditionSets` (abac module lines 194-200). -/
def listConditionSets (env : Env) : Option Json :=
  let result := permitApi (env listConditionSetsRequest)
  if result.success then result.data else some (.arr [])

/-- The request `listSetRules` issues (abac module lines 206-212). -/
def listSetRulesRequest : Request :=
  { method := "GET", endpoint := .setRules }

/-- Embeds `listSetRules` (abac module lines 206-212). -/
def listSetRules (env : Env) : Option Json :=
  let result := permitApi (env listSetRulesRequest)
  if result.success then result.data else some (.arr [])

/-- The create request of `createOrUpdateUserSet` (src/horaion-setup.js
lines 128-132): `\x7b ...userSet, type: 'userset' \x7d`. -/
def horaionCreateRequest (userSet : Json) : Request :=
  { method := "POST", endpoint := .conditionSets,
    body := some (userSet.spreadSet "type" (.str "userset")) }

/-- The PATCH request of `createOrUpdateUserSet` (src/horaion-setup.js
lines 141-145): body carries only the condition expression. -/
def horaionPatchRequest (userSet : Json) : Request :=
  { method := "PATCH", endpoint := .conditionSet (userSet.getField "key").jsToString,
    body := some (.obj [("conditions", userSet.getField "conditions")]) }

/-- Embeds `createOrUpdateUserSet` (src/horaion-setup.js lines 126-155):
returns the boolean result together with the trace of requests issued.
Control flow follows the source exactly: if the create result has
`success` it returns true at once; only otherwise, when the create
status is 409, a PATCH is attempted. -/
def createOrUpdateUserSet (env : Env) (userSet : Json) : Bool × List Request :=
  let createReq := horaionCreateRequest userSet
  let createResult := permitApi (env createReq)
  if createResult.success then
    (true, [createReq])
  else if createResult.status == some 409 then
    let patchReq := horaionPatchRequest userSet
    let updateResult := permitApi (env patchReq)
    if updateResult.success then
      (true, [createReq, patchReq])
    else
      (false, [createReq, patchReq])
  else
    (false, [createReq])

/-- `String.prototype.includes`: substring containment. -/
def stringIncludes (s pat : String) : Bool :=
  decide (pat.data <:+: s.data)

/-- The user sets `verifySetup` examines (src/horaion-setup.js lines
341-342): the listed condition sets filtered to `type === 'userset'`. -/
def verifyUserSets (env : Env) : List Json :=
  (match listConditionSets env with
   | none => []
   | some j => j.asArray).filter (fun cs => (cs.getField "type").isStrEq "userset")

/-- The lint predicate of `verifySetup` (src/horaion-setup.js lines
362-365): a user set is flagged when the `JSON.stringify` of its
conditions contains the substring `subject.groups`. -/
def usesSubjectGroups (us : Json) : Bool :=
  stringIncludes (us.getField "conditions").stringify "subject.groups"

/-- The flagged list `wrongConditions` of `verifySetup`
(src/horaion-setup.js lines 362-365). -/
def verifyWrongConditions (env : Env) : List Json :=
  (verifyUserSets env).filter usesSubjectGroups

/-- The per-set status marker of `verifySetup` (src/horaion-setup.js
lines 346-348): whether the serialized conditions contain
`user.groups`. -/
def usesUserGroups (us : Json) : Bool :=
  stringIncludes (us.getField "conditions").stringify "user.groups"

/-- The list request of `deleteSetRules` (src/reset.js lines 21-24). -/
def setRulesListRequest : Request :=
  { method := "GET", endpoint := .setRules }

/-- The per-rule delete request of `deleteSetRules` (src/reset.js lines
35-43): a DELETE on the set-rules path carrying the full triple. -/
def setRuleDeleteRequest (rule : Json) : Request :=
  { method := "DELETE", endpoint := .setRules,
    body := some (.obj
      [("user_set", rule.getField "user_set"),
       ("resource_set", rule.getField "resource_set"),
       ("permission", rule.getField "permission")]) }

/-- Requests issued by `deleteSetRules` (src/reset.js lines 18-51): the
GET, then — only when it succeeded with truthy data — one DELETE per
listed rule. -/
def deleteSetRulesTrace (env : Env) : List Request :=
  let result := permitApi (env setRulesListRequest)
  setRulesListRequest ::
    (if result.success && jsTruthy result.data then
      (match result.data with
       | some j => j.asArray
       | none => []).map setRuleDeleteRequest
    else [])

/-- How `deleteSetRules` treats one per-rule delete result (src/reset.js
lines 45-47): it is counted in the stage's `deleted` tally exactly when
`deleteResult.success`; there is no separate not-found branch. -/
def setRuleDeleteCounted (r : ApiResult) : Bool :=
  r.success

/-- The listed condition sets a reset iterates (src/reset.js line 59 via
`listConditionSets`); a truthy non-array (on which the source would
fault at `.filter`) contributes no elements. -/
def conditionSetsOf (env : Env) : List Json :=
  match listConditionSets env with
  | none => []
  | some j => j.asArray

/-- The per-set delete request of `deleteConditionSets` (src/reset.js
lines 70-73 and 88-91). -/
def conditionSetDeleteRequest (cs : Json) : Request :=
  { method := "DELETE", endpoint := .conditionSet (cs.getField "key").jsToString }

/-- Requests issued by `deleteConditionSets` (src/reset.js lines
56-103): the GET, then — unless the listing was falsy or empty — one
DELETE per resource set, then one DELETE per user set. -/
def deleteConditionSetsTrace (env : Env) : List Request :=
  listConditionSetsRequest ::
    (if !(jsTruthy (listConditionSets env)) || (conditionSetsOf env).length == 0 then []
     else
       ((conditionSetsOf env).filter
           (fun cs => (cs.getField "type").isStrEq "resourceset")).map conditionSetDeleteRequest
         ++ ((conditionSetsOf env).filter
           (fun cs => (cs.getField "type").isStrEq "userset")).map conditionSetDeleteRequest)

/-- Classification of a per-item delete result. -/
inductive ItemOutcome where
  | deletedOk
  | alreadyAbsent
  | failed
  deriving DecidableEq

/-- How `deleteConditionSets` treats one per-set delete result
(src/reset.js lines 75-81 and 93-99): success, else 404 logged as
"already deleted", else a warning. -/
def conditionSetDeleteOutcome (r : ApiResult) : ItemOutcome :=
  if r.success then .deletedOk
  else if r.status == some 404 then .alreadyAbsent
  else .failed

/-- The delete request of `deleteUserAttributes` (src/reset.js lines
113-116): the fixed attribute on the `__user` resource. -/
def userAttributeDeleteRequest (attributeKey : String) : Request :=
  { method := "DELETE", endpoint := .resourceAttribute "__user" attributeKey }

/-- Requests issued by `deleteUserAttributes` (src/reset.js lines
109-127): a single DELETE of the given attribute key. -/
def deleteUserAttributesTrace (attributeKey : String) : List Request :=
  [userAttributeDeleteRequest attributeKey]

/-- How `deleteUserAttributes` treats the delete result (src/reset.js
lines 118-124). -/
def userAttributeDeleteOutcome (r : ApiResult) : ItemOutcome :=
  if r.success then .deletedOk
  else if r.status == some 404 then .alreadyAbsent
  else .failed

/-- The listed roles a reset iterates (src/reset.js line 135 via
`listRoles`). -/
def rolesOf (env : Env) : List Json :=
  match listRoles env with
  | none => []
  | some j => j.asArray

/-- The protected-role skip of `deleteRoles` (src/reset.js line 144):
`PROTECTED_ROLES.includes(role.key)` with `PROTECTED_ROLES =
['admin', 'viewer']`. -/
def isProtectedRole (role : Json) : Bool :=
  (role.getField "key").isStrEq "admin" || (role.getField "key").isStrEq "viewer"

/-- The per-role delete request of `deleteRoles` (src/reset.js lines
150-153). -/
def roleDeleteRequest (role : Json) : Request :=
  { method := "DELETE", endpoint := .role (role.getField "key").jsToString }

/-- Requests issued by `deleteRoles` (src/reset.js lines 132-165): the
GET, then one DELETE per listed role that is not protected. -/
def deleteRolesTrace (env : Env) : List Request :=
  listRolesRequest ::
    (if !(jsTruthy (listRoles env)) || (rolesOf env).length == 0 then []
     else (rolesOf env).filterMap (fun role =>
       if isProtectedRole role then none else some (roleDeleteRequest role)))

/-- How `deleteRoles` treats one per-role delete result (src/reset.js
lines 155-161). -/
def roleDeleteOutcome (r : ApiResult) : ItemOutcome :=
  if r.success then .deletedOk
  else if r.status == some 404 then .alreadyAbsent
  else .failed

/-- The listed resources a reset iterates (src/reset.js line 173 via
`listResources`). -/
def resourcesOf (env : Env) : List Json :=
  match listResources env with
  | none => []
  | some j => j.asArray

/-- The protected-resource skip of `deleteResources` (src/reset.js line
182): `PROTECTED_RESOURCES.includes(resource.key)` with
`PROTECTED_RESOURCES = ['__user']`. -/
def isProtectedResource (resource : Json) : Bool :=
  (resource.getField "key").isStrEq "__user"

/-- Requests issued by `deleteResources` (src/reset.js lines 170-198):
the GET, then — through `deleteResource` — one DELETE per listed
resource that is not protected. -/
def deleteResourcesTrace (env : Env) : List Request :=
  listResourcesRequest ::
    (if !(jsTruthy (listResources env)) || (resourcesOf env).length == 0 then []
     else (resourcesOf env).filterMap (fun resource =>
       if isProtectedResource resource then none
       else some (deleteResourceRequest (resource.getField "key").jsToString)))

/-- How `deleteResources` treats one per-resource outcome (src/reset.js
lines 188-194): `deleteResource` already folds 404 into `true`, so the
stage sees success exactly when the call succeeded or returned 404. -/
def resourceDeleteOutcome (r : ApiResult) : ItemOutcome :=
  if r.success || r.status == some 404 then .deletedOk
  else .failed

/-- The delete request of `deleteDefaultTenant` (src/reset.js lines
207-210). -/
def tenantDeleteRequest (tenantKey : String) : Request :=
  { method := "DELETE", endpoint := .tenant tenantKey }

/-- Requests issued by `deleteDefaultTenant` (src/reset.js lines
204-219). -/
def deleteDefaultTenantTrace (tenantKey : String) : List Request :=
  [tenantDeleteRequest tenantKey]

/-- How `deleteDefaultTenant` treats the delete result (src/reset.js
lines 212-218). -/
def tenantDeleteOutcome (r : ApiResult) : ItemOutcome :=
  if r.success then .deletedOk
  else if r.status == some 404 then .alreadyAbsent
  else .failed

/-- Requests issued by `resetAll` (src/reset.js lines 224-247): the six
stages awaited one after another, with the default attribute key
`department` (DEFAULT_USER_ATTRIBUTE) and tenant key `default`
(DEFAULT_TENANT). -/
def resetAllTrace (env : Env) : List Request :=
  deleteSetRulesTrace env
    ++ deleteConditionSetsTrace env
    ++ deleteUserAttributesTrace "department"
    ++ deleteRolesTrace env
    ++ deleteResourcesTrace env
    ++ deleteDefaultTenantTrace "default"

/-- The reset stage an endpoint belongs to, in `resetAll`'s intended
order. -/
def stageOf (req : Request) : Nat :=
  match req.endpoint with
  | .setRules => 1
  | .conditionSets => 2
  | .conditionSet _ => 2
  | .resourceAttributes _ => 3
  | .resourceAttribute _ _ => 3
  | .roles => 4
  | .role _ => 4
  | .rolePermissions _ => 4
  | .resources => 5
  | .resource _ => 5
  | .tenant _ => 6

/-- The condition-set key a request deletes, if it is such a delete. -/
def csExtract (r : Request) : Option String :=
  match r.endpoint, r.method with
  | .conditionSet key, "DELETE" => some key
  | _, _ => none

/-- The condition-set keys a trace deletes, in order. -/
def condSetDeleteKeys (trace : List Request) : List String :=
  trace.filterMap csExtract


/-- A flagged user set: its condition mentions `subject.groups`. -/
def lintFlaggedSet : Json :=
  .obj [("key", .str "bad-set"), ("type", .str "userset"),
        ("conditions", .str "subject.groups")]

/-- A clean user set: its condition mentions only `user.groups`. -/
def lintCleanSet : Json :=
  .obj [("key", .str "good-set"), ("type", .str "userset"),
        ("conditions", .str "user.groups")]

/-- A remote whose condition-set listing returns the two sets above. -/
def lintWitnessEnv : Env := fun r =>
  match r.method, r.endpoint with
  | "GET", .conditionSets => .response 200 (some (.arr [lintFlaggedSet, lintCleanSet]))
  | _, _ => .response 404 none

/-- The condition sets of a scripted remote: resource sets and user
sets interleaved in listing order. -/
def resetScriptSets : List Json :=
  [.obj [("key", .str "rs-a"), ("type", .str "resourceset")],
   .obj [("key", .str "us-a"), ("type", .str "userset")],
   .obj [("key", .str "rs-b"), ("type", .str "resourceset")],
   .obj [("key", .str "us-b"), ("type", .str "userset")]]

/-- A scripted remote for exercising a full reset: every listing
returns a few entities, the protected keys among them, and every other
call is answered 200. -/
def resetScriptEnv : Env := fun r =>
  match r.endpoint, r.method with
  | .setRules, "GET" => .response 200 (some (.arr
      [.obj [("user_set", .str "us-a"), ("resource_set", .str "rs-a"),
             ("permission", .str "document:read")]]))
  | .conditionSets, "GET" => .response 200 (some (.arr resetScriptSets))
  | .roles, "GET" => .response 200 (some (.arr
      [.obj [("key", .str "admin")], .obj [("key", .str "editor")],
       .obj [("key", .str "viewer")]]))
  | .resources, "GET" => .response 200 (some (.arr
      [.obj [("key", .str "__user")], .obj [("key", .str "document")]]))
  | _, _ => .response 200 none

theorem permitApi_ok (status : Nat) (body : Option Json)
    (h1 : 200 ≤ status) (h2 : status < 300) :
    permitApi (.response status body) =
      { success := true, data := body, status := some status } := by
  simp [permitApi, h1, h2]

theorem permitApi_conflict (body : Option Json) :
    permitApi (.response 409 body) =
      { success := true, data := body, status := some 409, «exists» := true } :=
  rfl

theorem permitApi_fail (status : Nat) (body : Option Json)
    (h1 : ¬(200 ≤ status ∧ status < 300)) (h2 : status ≠ 409) :
    permitApi (.response status body) =
      { success := false, data := body, status := some status } := by
  simp only [permitApi]
  rw [if_neg h1, if_neg h2]

theorem permitApi_networkError (message : String) :
    permitApi (.networkError message) =
      { success := false, error := some message } :=
  rfl

theorem permitApi_response_success (status : Nat) (body : Option Json) :
    (permitApi (.response status body)).success = true ↔
      (200 ≤ status ∧ status < 300 ∨ status = 409) := by
  by_cases h1 : 200 ≤ status ∧ status < 300
  · rw [permitApi_ok status body h1.1 h1.2]
    simp [h1]
  · by_cases h2 : status = 409
    · subst h2
      rw [permitApi_conflict body]
      simp
    · rw [permitApi_fail status body h1 h2]
      simp [h1, h2]

theorem permitApi_response_status (status : Nat) (body : Option Json) :
    (permitApi (.response status body)).status = some status := by
  simp only [permitApi]
  split_ifs <;> rfl

/-- C1: for every Transport Client call, a 2xx response yields
success=true; a 409 yields success=true and exists=true; any other
non-2xx yields success=false with the parsed body still attached as
data; a network failure or timeout abort yields success=false with
error populated and no status field. -/
theorem C1_permitApi_classification :
    (∀ status body, 200 ≤ status → status < 300 →
      permitApi (.response status body) =
        { success := true, data := body, status := some status }) ∧
    (∀ body, permitApi (.response 409 body) =
      { success := true, data := body, status := some 409, «exists» := true }) ∧
    (∀ status body, ¬(200 ≤ status ∧ status < 300) → status ≠ 409 →
      permitApi (.response status body) =
        { success := false, data := body, status := some status }) ∧
    (∀ message, permitApi (.networkError message) =
      { success := false, data := none, status := none, «exists» := false,
        error := some message }) :=
  ⟨fun s b h1 h2 => permitApi_ok s b h1 h2,
   fun b => permitApi_conflict b,
   fun s b h1 h2 => permitApi_fail s b h1 h2,
   fun m => permitApi_networkError m⟩

/-- Witness for C1 at concrete statuses 204 and 503. -/
theorem C1_permitApi_classification_witness :
    permitApi (.response 204 none) =
      { success := true, data := none, status := some 204 } ∧
    permitApi (.response 503 (some (.num 7))) =
      { success := false, data := some (.num 7), status := some 503 } :=
  ⟨C1_permitApi_classification.1 204 none (by decide) (by decide),
   C1_permitApi_classification.2.2.1 503 (some (.num 7)) (by decide) (by decide)⟩

/-- C2: for every entity repository create operation, a 409 Conflict
response makes `create` return true with the underlying result marked
exists=true; the 409 is not treated as a failure. -/
theorem C2_create_conflict_is_success
    (env : Env) (resource role attributeConfig userSet resourceSet : Json)
    (ruleUserSet ruleResourceSet rulePermission : String)
    (b1 b2 b3 b4 b5 b6 : Option Json)
    (h1 : env (createResourceRequest resource) = .response 409 b1)
    (h2 : env (createRoleRequest role) = .response 409 b2)
    (h3 : env (createUserAttributeRequest attributeConfig) = .response 409 b3)
    (h4 : env (createUserSetRequest userSet) = .response 409 b4)
    (h5 : env (createResourceSetRequest resourceSet) = .response 409 b5)
    (h6 : env (createSetRuleRequest ruleUserSet ruleResourceSet rulePermission) =
      .response 409 b6) :
    (createResource env resource = true ∧
      (permitApi (env (createResourceRequest resource))).«exists» = true) ∧
    (createRole env role = true ∧
      (permitApi (env (createRoleRequest role))).«exists» = true) ∧
    (createUserAttribute env attributeConfig = true ∧
      (permitApi (env (createUserAttributeRequest attributeConfig))).«exists» = true) ∧
    (createUserSet env userSet = true ∧
      (permitApi (env (createUserSetRequest userSet))).«exists» = true) ∧
    (createResourceSet env resourceSet = true ∧
      (permitApi (env (createResourceSetRequest resourceSet))).«exists» = true) ∧
    (createSetRule env ruleUserSet ruleResourceSet rulePermission = true ∧
      (permitApi
        (env (createSetRuleRequest ruleUserSet ruleResourceSet rulePermission))).«exists» =
        true) := by
  refine ⟨⟨?_, ?_⟩, ⟨?_, ?_⟩, ⟨?_, ?_⟩, ⟨?_, ?_⟩, ⟨?_, ?_⟩, ⟨?_, ?_⟩⟩ <;>
    simp [createResource, createRole, createUserAttribute, createUserSet,
      createResourceSet, createSetRule, h1, h2, h3, h4, h5, h6, permitApi_conflict]

/-- Witness for C2: a remote answering 409 to everything; the resource
create and the set-rule create both report success. -/
theorem C2_create_conflict_is_success_witness :
    createResource (fun _ => .response 409 none) (.obj [("key", .str "invoice")]) = true ∧
    createSetRule (fun _ => .response 409 none) "users" "__autogen_company" "company:read" =
      true :=
  have h := C2_create_conflict_is_success (fun _ => .response 409 none)
    (.obj [("key", .str "invoice")]) .null .null .null .null
    "users" "__autogen_company" "company:read"
    none none none none none none rfl rfl rfl rfl rfl rfl
  ⟨h.1.1, h.2.2.2.2.2.1⟩

theorem deleteCall_true_iff (o : FetchOutcome) :
    ((permitApi o).success || (permitApi o).status == some 404) = true ↔
      ∃ status body, o = .response status body ∧
        (200 ≤ status ∧ status < 300 ∨ status = 409 ∨ status = 404) := by
  cases o with
  | networkError m => simp [permitApi_networkError]
  | response s b =>
    simp [permitApi_response_success, permitApi_response_status, or_assoc]

/-- C3: `delete(key)` returns true exactly when the underlying call
succeeds (2xx, or 409 which the client already folds into success) or
returns HTTP 404; any other outcome — other failing statuses or a
network error — returns false. -/
theorem C3_delete_idempotent (env : Env) (key : String) :
    (deleteResource env key = true ↔
      ∃ status body, env (deleteResourceRequest key) = .response status body ∧
        (200 ≤ status ∧ status < 300 ∨ status = 409 ∨ status = 404)) ∧
    (deleteRole env key = true ↔
      ∃ status body, env (deleteRoleRequest key) = .response status body ∧
        (200 ≤ status ∧ status < 300 ∨ status = 409 ∨ status = 404)) :=
  ⟨deleteCall_true_iff (env (deleteResourceRequest key)),
   deleteCall_true_iff (env (deleteRoleRequest key))⟩

/-- Counterexample to C4 as stated: a successful (200) response whose
body is empty or not JSON makes `listResources` return the JS `null`
(`none`), not an array — "list() never returns null" fails. -/
theorem C4_list_never_null_counterexample :
    listResources (fun _ => .response 200 none) = none :=
  rfl

/-- C4 (amended): `list()` returns an empty sequence on any list
failure, and on a successful response returns the parsed body — the
parsed array whenever the service sends one, but the JS `null` when a
successful response carries no parseable JSON body. -/
theorem C4_list_amended (env : Env) :
    ((permitApi (env listResourcesRequest)).success = false →
      listResources env = some (.arr [])) ∧
    ((permitApi (env listResourcesRequest)).success = true →
      listResources env = (permitApi (env listResourcesRequest)).data) ∧
    ((permitApi (env listRolesRequest)).success = false →
      listRoles env = some (.arr [])) ∧
    ((permitApi (env listRolesRequest)).success = true →
      listRoles env = (permitApi (env listRolesRequest)).data) ∧
    ((permitApi (env listConditionSetsRequest)).success = false →
      listConditionSets env = some (.arr [])) ∧
    ((permitApi (env listConditionSetsRequest)).success = true →
      listConditionSets env = (permitApi (env listConditionSetsRequest)).data) ∧
    ((permitApi (env listSetRulesRequest)).success = false →
      listSetRules env = some (.arr [])) ∧
    ((permitApi (env listSetRulesRequest)).success = true →
      listSetRules env = (permitApi (env listSetRulesRequest)).data) := by
  refine ⟨?_, ?_, ?_, ?_, ?_, ?_, ?_, ?_⟩ <;> intro h <;>
    simp [listResources, listRoles, listConditionSets, listSetRules, h]

/-- Witness for C4 (amended): a failing listing yields `[]`, a
successful one yields the parsed array. -/
theorem C4_list_amended_witness :
    listResources (fun _ => .response 500 none) = some (.arr []) ∧
    listConditionSets (fun _ => .response 200 (some (.arr [.null]))) =
      some (.arr [.null]) :=
  ⟨(C4_list_amended (fun _ => .response 500 none)).1 rfl,
   (C4_list_amended (fun _ => .response 200 (some (.arr [.null])))).2.2.2.2.2.1 rfl⟩

theorem lookupValue_map_overwrite (k : String) (v : Json)
    (fields : List (String × Json)) (hany : fields.any (fun p => p.1 = k) = true) :
    Json.fieldValue.lookupValue
      (fields.map (fun p => if p.1 = k then (k, v) else p)) k = some v := by
  induction fields with
  | nil => simp at hany
  | cons p rest ih =>
    by_cases hp : p.1 = k
    · rw [List.map_cons, if_pos hp]
      simp [Json.fieldValue.lookupValue]
    · rw [List.map_cons, if_neg hp]
      have hrest : rest.any (fun p => p.1 = k) = true := by
        simpa [hp] using hany
      simp [Json.fieldValue.lookupValue, hp, ih hrest]

theorem lookupValue_append_singleton (k : String) (v : Json)
    (fields : List (String × Json)) (hnone : fields.any (fun p => p.1 = k) = false) :
    Json.fieldValue.lookupValue (fields ++ [(k, v)]) k = some v := by
  induction fields with
  | nil => simp [Json.fieldValue.lookupValue]
  | cons p rest ih =>
    have hp : ¬(p.1 = k) := by
      intro hpk
      simp [hpk] at hnone
    have hrest : rest.any (fun p => p.1 = k) = false := by
      simpa [hp] using hnone
    simp [Json.fieldValue.lookupValue, hp, ih hrest]

theorem fieldValue_spreadSet (j : Json) (k : String) (v : Json) :
    (j.spreadSet k v).fieldValue k = some v := by
  cases j with
  | obj fields =>
    simp only [Json.spreadSet, Json.fieldValue, Json.spreadSet.setField]
    by_cases hany : fields.any (fun p => p.1 = k) = true
    · simp [hany, lookupValue_map_overwrite k v fields hany]
    · simp only [Bool.not_eq_true] at hany
      simp [hany, lookupValue_append_singleton k v fields hany]
  | null => simp [Json.spreadSet, Json.fieldValue, Json.fieldValue.lookupValue]
  | bool b => simp [Json.spreadSet, Json.fieldValue, Json.fieldValue.lookupValue]
  | num n => simp [Json.spreadSet, Json.fieldValue, Json.fieldValue.lookupValue]
  | str s => simp [Json.spreadSet, Json.fieldValue, Json.fieldValue.lookupValue]
  | arr elems => simp [Json.spreadSet, Json.fieldValue, Json.fieldValue.lookupValue]

/-- C10: every condition-set create payload carries the repository's own
type discriminant — `userset` for createUserSet, `resourceset` for
createResourceSet — and because the discriminant is merged after the
caller's fields, it overwrites any `type` field the caller supplied. -/
theorem C10_condition_set_type_discriminant (userSet resourceSet : Json) :
    ((createUserSetRequest userSet).body.getD .null).fieldValue "type" =
      some (.str "userset") ∧
    ((createResourceSetRequest resourceSet).body.getD .null).fieldValue "type" =
      some (.str "resourceset") :=
  ⟨fieldValue_spreadSet userSet "type" (.str "userset"),
   fieldValue_spreadSet resourceSet "type" (.str "resourceset")⟩

/-- C9, behavior at the failing input: because `permitApi` classifies a
409 create response as `success = true`, `createOrUpdateUserSet`
returns true from its first branch and the `status === 409` PATCH
branch is unreachable — no PATCH is ever issued on conflict, contrary
to the claim and to the source's own comment "If exists (409), update
it". -/
theorem C9_conflict_never_patches (env : Env) (userSet : Json) (body : Option Json)
    (h : env (horaionCreateRequest userSet) = .response 409 body) :
    createOrUpdateUserSet env userSet = (true, [horaionCreateRequest userSet]) := by
  simp [createOrUpdateUserSet, h, permitApi_conflict]

/-- Witness for C9's behavior theorem: a remote answering 409. -/
theorem C9_conflict_never_patches_witness :
    createOrUpdateUserSet (fun _ => .response 409 none)
        (.obj [("key", .str "managers")]) =
      (true, [horaionCreateRequest (.obj [("key", .str "managers")])]) :=
  C9_conflict_never_patches (fun _ => .response 409 none)
    (.obj [("key", .str "managers")]) none rfl

/-- C8: for every user set the verification lint sees, a serialized
condition containing the substring `subject.groups` puts it in the
flagged `wrongConditions` list; one containing only `user.groups` (and
not `subject.groups`) is not flagged. -/
theorem C8_condition_scope_lint (env : Env) (us : Json)
    (hmem : us ∈ verifyUserSets env) :
    (stringIncludes (us.getField "conditions").stringify "subject.groups" = true →
      us ∈ verifyWrongConditions env) ∧
    (stringIncludes (us.getField "conditions").stringify "user.groups" = true →
      stringIncludes (us.getField "conditions").stringify "subject.groups" = false →
      us ∉ verifyWrongConditions env) := by
  constructor
  · intro hflag
    simp [verifyWrongConditions, List.mem_filter, hmem, usesSubjectGroups, hflag]
  · intro _ hclean
    simp [verifyWrongConditions, List.mem_filter, usesSubjectGroups, hclean]


/-- Witness for C8: the flagged set lands in `wrongConditions`, the
clean one does not. -/
theorem C8_condition_scope_lint_witness :
    lintFlaggedSet ∈ verifyWrongConditions lintWitnessEnv ∧
    lintCleanSet ∉ verifyWrongConditions lintWitnessEnv := by
  have husers : verifyUserSets lintWitnessEnv = [lintFlaggedSet, lintCleanSet] := rfl
  have hmem1 : lintFlaggedSet ∈ verifyUserSets lintWitnessEnv := by
    rw [husers]
    exact List.mem_cons_self _ _
  have hmem2 : lintCleanSet ∈ verifyUserSets lintWitnessEnv := by
    rw [husers]
    exact List.mem_cons_of_mem _ (List.mem_cons_self _ _)
  exact ⟨(C8_condition_scope_lint lintWitnessEnv lintFlaggedSet hmem1).1 rfl,
    (C8_condition_scope_lint lintWitnessEnv lintCleanSet hmem2).2 rfl rfl⟩

theorem deleteSetRulesTrace_endpoints (env : Env) (r : Request)
    (h : r ∈ deleteSetRulesTrace env) : r.endpoint = .setRules := by
  simp only [deleteSetRulesTrace, List.mem_cons] at h
  rcases h with h | h
  · rw [h]
    rfl
  · split at h
    · obtain ⟨rule, -, hr⟩ := List.mem_map.mp h
      rw [← hr]
      rfl
    · exact absurd h (List.not_mem_nil r)

theorem deleteConditionSetsTrace_endpoints (env : Env) (r : Request)
    (h : r ∈ deleteConditionSetsTrace env) :
    r.endpoint = .conditionSets ∨
      ∃ cs, cs ∈ conditionSetsOf env ∧ r = conditionSetDeleteRequest cs := by
  simp only [deleteConditionSetsTrace, List.mem_cons] at h
  rcases h with h | h
  · left
    rw [h]
    rfl
  · right
    split at h
    · exact absurd h (List.not_mem_nil r)
    · rcases List.mem_append.mp h with h' | h' <;>
      · obtain ⟨cs, hcs, hr⟩ := List.mem_map.mp h'
        exact ⟨cs, (List.mem_filter.mp hcs).1, hr.symm⟩

theorem deleteUserAttributesTrace_endpoints (attributeKey : String) (r : Request)
    (h : r ∈ deleteUserAttributesTrace attributeKey) :
    r.endpoint = .resourceAttribute "__user" attributeKey := by
  simp only [deleteUserAttributesTrace, List.mem_singleton] at h
  rw [h]
  rfl

theorem deleteRolesTrace_endpoints (env : Env) (r : Request)
    (h : r ∈ deleteRolesTrace env) :
    r.endpoint = .roles ∨
      ∃ role, role ∈ rolesOf env ∧ isProtectedRole role = false ∧
        r = roleDeleteRequest role := by
  simp only [deleteRolesTrace, List.mem_cons] at h
  rcases h with h | h
  · left
    rw [h]
    rfl
  · right
    split at h
    · exact absurd h (List.not_mem_nil r)
    · obtain ⟨role, hrole, hr⟩ := List.mem_filterMap.mp h
      refine ⟨role, hrole, ?_, ?_⟩
      · by_contra hp
        rw [Bool.not_eq_false] at hp
        rw [if_pos hp] at hr
        exact Option.noConfusion hr
      · by_cases hp : isProtectedRole role = true
        · rw [if_pos hp] at hr
          exact Option.noConfusion hr
        · rw [if_neg hp] at hr
          exact (Option.some.injEq _ _ ▸ hr).symm

theorem deleteResourcesTrace_endpoints (env : Env) (r : Request)
    (h : r ∈ deleteResourcesTrace env) :
    r.endpoint = .resources ∨
      ∃ resource, resource ∈ resourcesOf env ∧ isProtectedResource resource = false ∧
        r = deleteResourceRequest (resource.getField "key").jsToString := by
  simp only [deleteResourcesTrace, List.mem_cons] at h
  rcases h with h | h
  · left
    rw [h]
    rfl
  · right
    split at h
    · exact absurd h (List.not_mem_nil r)
    · obtain ⟨resource, hresource, hr⟩ := List.mem_filterMap.mp h
      refine ⟨resource, hresource, ?_, ?_⟩
      · by_contra hp
        rw [Bool.not_eq_false] at hp
        rw [if_pos hp] at hr
        exact Option.noConfusion hr
      · by_cases hp : isProtectedResource resource = true
        · rw [if_pos hp] at hr
          exact Option.noConfusion hr
        · rw [if_neg hp] at hr
          exact (Option.some.injEq _ _ ▸ hr).symm

theorem deleteDefaultTenantTrace_endpoints (tenantKey : String) (r : Request)
    (h : r ∈ deleteDefaultTenantTrace tenantKey) :
    r.endpoint = .tenant tenantKey := by
  simp only [deleteDefaultTenantTrace, List.mem_singleton] at h
  rw [h]
  rfl

/-- Counterexample to C7 as stated: in the set-rules stage a per-item
delete answered 404 is not treated as success — it is left out of the
stage's `deleted` tally exactly like a 500 failure — whereas a 2xx
delete is counted. -/
theorem C7_set_rules_404_counterexample :
    setRuleDeleteCounted (permitApi (.response 404 none)) = false ∧
    setRuleDeleteCounted (permitApi (.response 500 none)) = false ∧
    setRuleDeleteCounted (permitApi (.response 204 none)) = true :=
  ⟨rfl, rfl, rfl⟩

/-- C7 (amended): the condition-set, attribute, role, resource and
tenant stages each treat a 404 per-item delete as success (already
absent); the set-rules stage alone has no not-found branch and does not
count a 404-answered delete as deleted, though it aborts nothing. -/
theorem C7_not_found_treated_as_success (body : Option Json) :
    conditionSetDeleteOutcome (permitApi (.response 404 body)) = .alreadyAbsent ∧
    userAttributeDeleteOutcome (permitApi (.response 404 body)) = .alreadyAbsent ∧
    roleDeleteOutcome (permitApi (.response 404 body)) = .alreadyAbsent ∧
    resourceDeleteOutcome (permitApi (.response 404 body)) = .deletedOk ∧
    tenantDeleteOutcome (permitApi (.response 404 body)) = .alreadyAbsent ∧
    setRuleDeleteCounted (permitApi (.response 404 body)) = false := by
  have h : permitApi (.response 404 body) =
      { success := false, data := body, status := some 404 } :=
    permitApi_fail 404 body (by decide) (by decide)
  refine ⟨?_, ?_, ?_, ?_, ?_, ?_⟩ <;>
    simp [h, conditionSetDeleteOutcome, userAttributeDeleteOutcome, roleDeleteOutcome,
      resourceDeleteOutcome, tenantDeleteOutcome, setRuleDeleteCounted]

theorem Json.isStr_iff (j : Json) : j.isStr = true ↔ ∃ s, j = .str s := by
  cases j <;> simp [Json.isStr]

theorem isProtectedRole_false_keys (role : Json) (s : String)
    (hk : role.getField "key" = .str s) (hp : isProtectedRole role = false) :
    s ≠ "admin" ∧ s ≠ "viewer" := by
  simp [isProtectedRole, hk, Json.isStrEq] at hp
  exact hp

theorem isProtectedResource_false_key (resource : Json) (s : String)
    (hk : resource.getField "key" = .str s) (hp : isProtectedResource resource = false) :
    s ≠ "__user" := by
  simp [isProtectedResource, hk, Json.isStrEq] at hp
  exact hp

/-- C6: during a full reset the protected resource key `__user` and the
protected role keys `admin` and `viewer` are never the target of a
delete call, even when they appear in the listed collections — for any
remote whose listings carry string `key` fields, as the data model
guarantees. -/
theorem C6_protected_keys_never_deleted (env : Env)
    (hres : (resourcesOf env).all (fun j => (j.getField "key").isStr) = true)
    (hrol : (rolesOf env).all (fun j => (j.getField "key").isStr) = true) :
    ∀ r ∈ resetAllTrace env,
      r.endpoint ≠ .resource "__user" ∧
      r.endpoint ≠ .role "admin" ∧ r.endpoint ≠ .role "viewer" := by
  intro r hr
  simp only [resetAllTrace, List.mem_append] at hr
  rcases hr with ((((h | h) | h) | h) | h) | h
  · rw [deleteSetRulesTrace_endpoints env r h]
    refine ⟨by simp, by simp, by simp⟩
  · rcases deleteConditionSetsTrace_endpoints env r h with he | ⟨cs, -, rfl⟩
    · rw [he]
      refine ⟨by simp, by simp, by simp⟩
    · refine ⟨by simp [conditionSetDeleteRequest], by simp [conditionSetDeleteRequest],
        by simp [conditionSetDeleteRequest]⟩
  · rw [deleteUserAttributesTrace_endpoints "department" r h]
    refine ⟨by simp, by simp, by simp⟩
  · rcases deleteRolesTrace_endpoints env r h with he | ⟨role, hmem, hprot, rfl⟩
    · rw [he]
      refine ⟨by simp, by simp, by simp⟩
    · have hk : (role.getField "key").isStr = true :=
        List.all_eq_true.mp hrol role hmem
      obtain ⟨s, hs⟩ := (Json.isStr_iff _).mp hk
      obtain ⟨ha, hv⟩ := isProtectedRole_false_keys role s hs hprot
      refine ⟨by simp [roleDeleteRequest], ?_, ?_⟩ <;>
        simp [roleDeleteRequest, hs, Json.jsToString, ha, hv]
  · rcases deleteResourcesTrace_endpoints env r h with he | ⟨resource, hmem, hprot, rfl⟩
    · rw [he]
      refine ⟨by simp, by simp, by simp⟩
    · have hk : (resource.getField "key").isStr = true :=
        List.all_eq_true.mp hres resource hmem
      obtain ⟨s, hs⟩ := (Json.isStr_iff _).mp hk
      have hu := isProtectedResource_false_key resource s hs hprot
      refine ⟨?_, by simp [deleteResourceRequest], by simp [deleteResourceRequest]⟩
      simp [deleteResourceRequest, hs, Json.jsToString, hu]
  · rw [deleteDefaultTenantTrace_endpoints "default" r h]
    refine ⟨by simp, by simp, by simp⟩

/-- Witness for C6 at the scripted remote, whose listings include the
protected keys `admin`, `viewer` and `__user`. -/
theorem C6_protected_keys_never_deleted_witness :
    setRulesListRequest.endpoint ≠ .resource "__user" ∧
    setRulesListRequest.endpoint ≠ .role "admin" ∧
    setRulesListRequest.endpoint ≠ .role "viewer" :=
  C6_protected_keys_never_deleted resetScriptEnv (by decide) (by decide)
    setRulesListRequest
    (by
      simp only [resetAllTrace]
      apply List.mem_append_left
      apply List.mem_append_left
      apply List.mem_append_left
      apply List.mem_append_left
      apply List.mem_append_left
      simp only [deleteSetRulesTrace]
      exact List.mem_cons_self _ _)

theorem pairwise_le_of_all_eq {l : List Nat} {c : Nat} (h : ∀ x ∈ l, x = c) :
    l.Pairwise (· ≤ ·) := by
  induction l with
  | nil => exact List.Pairwise.nil
  | cons a t ih =>
    refine List.Pairwise.cons (fun b hb => ?_)
      (ih fun x hx => h x (List.mem_cons_of_mem _ hx))
    rw [h a (List.mem_cons_self _ _), h b (List.mem_cons_of_mem _ hb)]

theorem pairwise_le_append_of_bounds {l₁ l₂ : List Nat} (c : Nat)
    (h₁ : ∀ x ∈ l₁, x ≤ c) (h₂ : ∀ x ∈ l₂, c ≤ x)
    (p₁ : l₁.Pairwise (· ≤ ·)) (p₂ : l₂.Pairwise (· ≤ ·)) :
    (l₁ ++ l₂).Pairwise (· ≤ ·) := by
  rw [List.pairwise_append]
  exact ⟨p₁, p₂, fun a ha b hb => le_trans (h₁ a ha) (h₂ b hb)⟩

theorem pairwise_le_six (m1 m2 m3 m4 m5 m6 : List Nat)
    (a1 : ∀ x ∈ m1, x = 1) (a2 : ∀ x ∈ m2, x = 2) (a3 : ∀ x ∈ m3, x = 3)
    (a4 : ∀ x ∈ m4, x = 4) (a5 : ∀ x ∈ m5, x = 5) (a6 : ∀ x ∈ m6, x = 6) :
    (m1 ++ (m2 ++ (m3 ++ (m4 ++ (m5 ++ m6))))).Pairwise (· ≤ ·) := by
  have b6 : ∀ x ∈ m6, (6 : Nat) ≤ x := fun x hx => le_of_eq (a6 x hx).symm
  have q56 : (m5 ++ m6).Pairwise (· ≤ ·) :=
    pairwise_le_append_of_bounds 5 (fun x hx => le_of_eq (a5 x hx))
      (fun x hx => le_trans (by omega) (b6 x hx))
      (pairwise_le_of_all_eq a5) (pairwise_le_of_all_eq a6)
  have b56 : ∀ x ∈ m5 ++ m6, (5 : Nat) ≤ x := by
    intro x hx
    rcases List.mem_append.mp hx with h | h
    · exact le_of_eq (a5 x h).symm
    · exact le_trans (by omega) (b6 x h)
  have q456 : (m4 ++ (m5 ++ m6)).Pairwise (· ≤ ·) :=
    pairwise_le_append_of_bounds 4 (fun x hx => le_of_eq (a4 x hx))
      (fun x hx => le_trans (by omega) (b56 x hx))
      (pairwise_le_of_all_eq a4) q56
  have b456 : ∀ x ∈ m4 ++ (m5 ++ m6), (4 : Nat) ≤ x := by
    intro x hx
    rcases List.mem_append.mp hx with h | h
    · exact le_of_eq (a4 x h).symm
    · exact le_trans (by omega) (b56 x h)
  have q3456 : (m3 ++ (m4 ++ (m5 ++ m6))).Pairwise (· ≤ ·) :=
    pairwise_le_append_of_bounds 3 (fun x hx => le_of_eq (a3 x hx))
      (fun x hx => le_trans (by omega) (b456 x hx))
      (pairwise_le_of_all_eq a3) q456
  have b3456 : ∀ x ∈ m3 ++ (m4 ++ (m5 ++ m6)), (3 : Nat) ≤ x := by
    intro x hx
    rcases List.mem_append.mp hx with h | h
    · exact le_of_eq (a3 x h).symm
    · exact le_trans (by omega) (b456 x h)
  have q23456 : (m2 ++ (m3 ++ (m4 ++ (m5 ++ m6)))).Pairwise (· ≤ ·) :=
    pairwise_le_append_of_bounds 2 (fun x hx => le_of_eq (a2 x hx))
      (fun x hx => le_trans (by omega) (b3456 x hx))
      (pairwise_le_of_all_eq a2) q3456
  have b23456 : ∀ x ∈ m2 ++ (m3 ++ (m4 ++ (m5 ++ m6))), (2 : Nat) ≤ x := by
    intro x hx
    rcases List.mem_append.mp hx with h | h
    · exact le_of_eq (a2 x h).symm
    · exact le_trans (by omega) (b3456 x h)
  exact pairwise_le_append_of_bounds 1 (fun x hx => le_of_eq (a1 x hx))
    (fun x hx => le_trans (by omega) (b23456 x hx))
    (pairwise_le_of_all_eq a1) q23456

theorem stageOf_deleteSetRulesTrace (env : Env) :
    ∀ x ∈ (deleteSetRulesTrace env).map stageOf, x = 1 := by
  intro x hx
  obtain ⟨r, hr, rfl⟩ := List.mem_map.mp hx
  simp [stageOf, deleteSetRulesTrace_endpoints env r hr]

theorem stageOf_deleteConditionSetsTrace (env : Env) :
    ∀ x ∈ (deleteConditionSetsTrace env).map stageOf, x = 2 := by
  intro x hx
  obtain ⟨r, hr, rfl⟩ := List.mem_map.mp hx
  rcases deleteConditionSetsTrace_endpoints env r hr with he | ⟨cs, -, rfl⟩
  · simp [stageOf, he]
  · simp [stageOf, conditionSetDeleteRequest]

theorem stageOf_deleteUserAttributesTrace (attributeKey : String) :
    ∀ x ∈ (deleteUserAttributesTrace attributeKey).map stageOf, x = 3 := by
  intro x hx
  obtain ⟨r, hr, rfl⟩ := List.mem_map.mp hx
  simp [stageOf, deleteUserAttributesTrace_endpoints attributeKey r hr]

theorem stageOf_deleteRolesTrace (env : Env) :
    ∀ x ∈ (deleteRolesTrace env).map stageOf, x = 4 := by
  intro x hx
  obtain ⟨r, hr, rfl⟩ := List.mem_map.mp hx
  rcases deleteRolesTrace_endpoints env r hr with he | ⟨role, -, -, rfl⟩
  · simp [stageOf, he]
  · simp [stageOf, roleDeleteRequest]

theorem stageOf_deleteResourcesTrace (env : Env) :
    ∀ x ∈ (deleteResourcesTrace env).map stageOf, x = 5 := by
  intro x hx
  obtain ⟨r, hr, rfl⟩ := List.mem_map.mp hx
  rcases deleteResourcesTrace_endpoints env r hr with he | ⟨resource, -, -, rfl⟩
  · simp [stageOf, he]
  · simp [stageOf, deleteResourceRequest]

theorem stageOf_deleteDefaultTenantTrace (tenantKey : String) :
    ∀ x ∈ (deleteDefaultTenantTrace tenantKey).map stageOf, x = 6 := by
  intro x hx
  obtain ⟨r, hr, rfl⟩ := List.mem_map.mp hx
  simp [stageOf, deleteDefaultTenantTrace_endpoints tenantKey r hr]

theorem csExtract_eq_none (r : Request)
    (h : ∀ k, r.endpoint ≠ .conditionSet k) : csExtract r = none := by
  rcases r with ⟨m, e, b⟩
  cases e <;> first
    | rfl
    | exact absurd rfl (h _)

theorem filterMap_csExtract_nil (tr : List Request)
    (h : ∀ r ∈ tr, ∀ k, r.endpoint ≠ .conditionSet k) :
    tr.filterMap csExtract = [] := by
  rw [List.filterMap_eq_nil_iff]
  intro r hr
  exact csExtract_eq_none r (h r hr)

theorem filterMap_csExtract_map_delete (l : List Json) :
    (l.map conditionSetDeleteRequest).filterMap csExtract =
      l.map (fun cs => (cs.getField "key").jsToString) := by
  induction l with
  | nil => rfl
  | cons cs rest ih =>
    simp only [List.map_cons, List.filterMap_cons]
    rw [show csExtract (conditionSetDeleteRequest cs) =
        some (cs.getField "key").jsToString from rfl, ih]

/-- C5: a full reset issues its calls in stage order — set rules (1),
condition sets (2), user attributes (3), roles (4), resources (5),
tenant (6) — with no stage's call preceding an earlier stage's, and
within the condition-set stage every resource-set delete precedes every
user-set delete: the deleted keys are exactly the listed resource-set
keys followed by the listed user-set keys. -/
theorem C5_reset_stage_order (env : Env) (sets : List Json)
    (hcs : env listConditionSetsRequest = .response 200 (some (.arr sets))) :
    List.Pairwise (· ≤ ·) ((resetAllTrace env).map stageOf) ∧
    condSetDeleteKeys (resetAllTrace env) =
      (sets.filter (fun cs => (cs.getField "type").isStrEq "resourceset")).map
          (fun cs => (cs.getField "key").jsToString) ++
        (sets.filter (fun cs => (cs.getField "type").isStrEq "userset")).map
          (fun cs => (cs.getField "key").jsToString) := by
  have hlist : listConditionSets env = some (.arr sets) := by
    simp only [listConditionSets]
    rw [hcs, permitApi_ok 200 (some (.arr sets)) (by omega) (by omega)]
    rfl
  have hsets : conditionSetsOf env = sets := by
    simp [conditionSetsOf, hlist, Json.asArray]
  constructor
  · rw [resetAllTrace]
    simp only [List.map_append, List.append_assoc]
    exact pairwise_le_six _ _ _ _ _ _
      (stageOf_deleteSetRulesTrace env) (stageOf_deleteConditionSetsTrace env)
      (stageOf_deleteUserAttributesTrace "department") (stageOf_deleteRolesTrace env)
      (stageOf_deleteResourcesTrace env) (stageOf_deleteDefaultTenantTrace "default")
  · have e1 : (deleteSetRulesTrace env).filterMap csExtract = [] :=
      filterMap_csExtract_nil _ (fun r hr k => by
        rw [deleteSetRulesTrace_endpoints env r hr]
        simp)
    have e3 : (deleteUserAttributesTrace "department").filterMap csExtract = [] := rfl
    have e4 : (deleteRolesTrace env).filterMap csExtract = [] :=
      filterMap_csExtract_nil _ (fun r hr k => by
        rcases deleteRolesTrace_endpoints env r hr with he | ⟨role, -, -, rfl⟩
        · rw [he]
          simp
        · simp [roleDeleteRequest])
    have e5 : (deleteResourcesTrace env).filterMap csExtract = [] :=
      filterMap_csExtract_nil _ (fun r hr k => by
        rcases deleteResourcesTrace_endpoints env r hr with he | ⟨resource, -, -, rfl⟩
        · rw [he]
          simp
        · simp [deleteResourceRequest])
    have e6 : (deleteDefaultTenantTrace "default").filterMap csExtract = [] := rfl
    have e2 : (deleteConditionSetsTrace env).filterMap csExtract =
        (sets.filter (fun cs => (cs.getField "type").isStrEq "resourceset")).map
            (fun cs => (cs.getField "key").jsToString) ++
          (sets.filter (fun cs => (cs.getField "type").isStrEq "userset")).map
            (fun cs => (cs.getField "key").jsToString) := by
      simp only [deleteConditionSetsTrace, hlist, hsets]
      by_cases hnil : sets = []
      · subst hnil
        simp [jsTruthy, Json.truthy, csExtract, listConditionSetsRequest]
      · have hlen : (sets.length == 0) = false := by
          simp [List.length_eq_zero, hnil]
        simp only [jsTruthy, Json.truthy, hlen, Bool.not_true, Bool.false_or,
          Bool.false_eq_true, if_false]
        rw [List.filterMap_cons]
        rw [show csExtract listConditionSetsRequest = none from rfl]
        rw [List.filterMap_append, filterMap_csExtract_map_delete,
          filterMap_csExtract_map_delete]
    calc condSetDeleteKeys (resetAllTrace env)
        = (deleteSetRulesTrace env).filterMap csExtract ++
            ((deleteConditionSetsTrace env).filterMap csExtract ++
              ((deleteUserAttributesTrace "department").filterMap csExtract ++
                ((deleteRolesTrace env).filterMap csExtract ++
                  ((deleteResourcesTrace env).filterMap csExtract ++
                    (deleteDefaultTenantTrace "default").filterMap csExtract)))) := by
          simp [condSetDeleteKeys, resetAllTrace, List.filterMap_append]
      _ = _ := by
          rw [e1, e2, e3, e4, e5, e6]
          simp

/-- Witness for C5: the scripted remote lists two resource sets and two
user sets interleaved; the reset deletes the resource sets first. -/
theorem C5_reset_stage_order_witness :
    List.Pairwise (· ≤ ·) ((resetAllTrace resetScriptEnv).map stageOf) ∧
    condSetDeleteKeys (resetAllTrace resetScriptEnv) =
      ["rs-a", "rs-b", "us-a", "us-b"] := by
  obtain ⟨h1, h2⟩ := C5_reset_stage_order resetScriptEnv resetScriptSets rfl
  refine ⟨h1, ?_⟩
  rw [h2]
  rfl
